import Mathlib

/-!
Verification development for the agent-idl repository.

The repository compiles WebIDL interface definitions extended with semantic
attributes (`Intent`, `Proof`, `Context`, `Semantic`, `Delegation`) into
client/handler SDK modules, and ships a conformance validator plus a minimal
intent-addressed message runtime.  This file is a shallow embedding of that
core: JavaScript/TypeScript values and functions are rendered as Lean
definitions (JS `undefined`/`null` and truthiness are modelled explicitly,
JS `Map`/object field assignment becomes an association list with
last-write-wins update, thrown errors become `Except`), and the theorems at
the end settle the specification claims against those definitions.
-/

/-- JavaScript runtime values, to the extent the embedded code inspects them:
`undefined`, `null`, booleans, numbers, strings and plain objects. -/
inductive JSValue where
  | undefVal
  | jsNull
  | bool (b : Bool)
  | num (n : Int)
  | str (s : String)
  | obj (fields : List (String × JSValue))

/-- JS truthiness: `undefined`, `null`, `false`, `0` and `""` are falsy. -/
def jsTruthy : JSValue → Bool
  | .undefVal => false
  | .jsNull => false
  | .bool b => b
  | .num n => n != 0
  | .str s => s != ""
  | .obj _ => true

/-- JS strict equality against `undefined` (`x === undefined`). -/
def jsIsUndefined : JSValue → Bool
  | .undefVal => true
  | _ => false

/-- JS strict equality against `null` (`x === null`). -/
def jsIsNull : JSValue → Bool
  | .jsNull => true
  | _ => false

/-- JS strict equality against `true` (`x === true`). -/
def jsIsTrue : JSValue → Bool
  | .bool b => b
  | _ => false

/-- JS strict equality between an arbitrary value and a string. -/
def jsStrictEqStr (v : JSValue) (s : String) : Bool :=
  match v with
  | .str t => t == s
  | _ => false

/-- Association list with JS object / `Map.set` update semantics: an existing
key keeps its position and gets the new value, a new key is appended. -/
def mapSet {V : Type} (m : List (String × V)) (k : String) (v : V) : List (String × V) :=
  match m with
  | [] => [(k, v)]
  | (k0, v0) :: rest => if k0 == k then (k, v) :: rest else (k0, v0) :: mapSet rest k v

/-- Association list lookup (JS object property read / `Map.get`). -/
def mapGet {V : Type} (m : List (String × V)) (k : String) : Option V :=
  match m with
  | [] => none
  | (k0, v) :: rest => if k0 == k then some v else mapGet rest k

/-- JS property read on an object value: a missing field (or a non-object
receiver) reads as `undefined`. -/
def getProp (v : JSValue) (k : String) : JSValue :=
  match v with
  | .obj fields => (mapGet fields k).getD .undefVal
  | _ => .undefVal

/-- JS `x || null` on a `string | null | undefined` value: the empty string is
falsy and collapses to `null`. -/
def jsOrNull : Option String → Option String
  | some s => if s == "" then none else some s
  | none => none

/-- JS falsiness of a `string | null` value (`!value`): null or empty. -/
def jsFalsyOptStr : Option String → Bool
  | none => true
  | some s => s == ""

/-- JS `x || dflt` on a `string | null | undefined` field, producing a string. -/
def jsOrDefaultStr (o : Option String) (dflt : String) : String :=
  match o with
  | some s => if s == "" then dflt else s
  | none => dflt

/-- Rendering of a possibly-absent JS string where the source coerces it to a
string (template literals, computed object keys): `undefined` renders as
`"undefined"`. -/
def jsKey : Option String → String
  | some s => s
  | none => "undefined"

/-- `listStartsWith l p` is true when `p` is a prefix of `l`. -/
def listStartsWith : List Char → List Char → Bool
  | _, [] => true
  | [], _ :: _ => false
  | c :: cs, d :: ds => c == d && listStartsWith cs ds

/-- `listContainsSub l sub` is true when `sub` occurs contiguously in `l`. -/
def listContainsSub (l sub : List Char) : Bool :=
  match l with
  | [] => listStartsWith [] sub
  | c :: t => listStartsWith (c :: t) sub || listContainsSub t sub

/-- JS `s.includes(sub)`: substring containment. -/
def strIncludes (s sub : String) : Bool :=
  listContainsSub s.data sub.data

/-- JS `s.startsWith(pre)`. -/
def strStartsWith (s pre : String) : Bool :=
  listStartsWith s.data pre.data

/-- JS `s.endsWith(suf)`. -/
def strEndsWith (s suf : String) : Bool :=
  listStartsWith s.data.reverse suf.data.reverse

/-- JS `s.toLowerCase()` on the ASCII identifiers this code handles. -/
def strToLower (s : String) : String :=
  ⟨s.data.map Char.toLower⟩

/-- The recursive WebIDL type-descriptor shape handled by the generator and
SDK loaders: `string | IDLTypeDescription | IDLTypeDescription[] | null`,
where a descriptor node carries `union : boolean`, `generic : string`
(empty when not generic) and a nested `idlType` field (`IdlType.null` models
an absent field). -/
inductive IdlType where
  | null
  | str (s : String)
  | list (ts : List IdlType)
  | node (union : Bool) (generic : String) (idlType : IdlType)

/-- JS truthiness of an `IdlType`-shaped value (`null`/`""` falsy; arrays and
objects truthy). -/
def IdlType.truthy : IdlType → Bool
  | .null => false
  | .str s => s != ""
  | .list _ => true
  | .node _ _ _ => true

/-- JS `Array.isArray` on an `IdlType`-shaped value. -/
def IdlType.isList : IdlType → Bool
  | .list _ => true
  | _ => false

/-- `mapPrimitive` from the generator: the fixed primitive-name table.
Matching is on the lowercased name; unrecognized names fall through to the
original name (a nominal custom-type reference). -/
def mapPrimitive (typeName : String) : String :=
  if strToLower typeName = "boolean" then "boolean"
  else if strToLower typeName = "byte" ∨ strToLower typeName = "octet" ∨
      strIncludes (strToLower typeName) "short" = true ∨
      strIncludes (strToLower typeName) "long" = true then "number"
  else if strToLower typeName = "double" ∨ strToLower typeName = "float" then "number"
  else if strToLower typeName = "domstring" ∨ strToLower typeName = "usvstring" ∨
      strToLower typeName = "string" then "string"
  else if strToLower typeName = "any" then "any"
  else typeName

mutual
/-- `mapIdlTypeToTs` from the generator.  An array of descriptors and a
union node both join their members with `" | "`; a generic node wraps its
inner resolution (`Promise`/`sequence` specially); a bare nested descriptor
unwraps; anything falsy degrades to `"any"`. -/
def mapIdlTypeToTs : IdlType → String
  | .null => "any"
  | .str s => mapPrimitive s
  | .list ts => String.intercalate " | " (mapIdlTypeToTsList ts)
  | .node u g inner =>
    if u && inner.isList then mapIdlTypeToTs inner
    else if g != "" then
      let innerStr := if inner.truthy then mapIdlTypeToTs inner else "any"
      if g == "Promise" then "Promise<" ++ innerStr ++ ">"
      else if g == "sequence" then "Array<" ++ innerStr ++ ">"
      else g ++ "<" ++ innerStr ++ ">"
    else if inner.truthy then mapIdlTypeToTs inner
    else "any"
termination_by structural t => t

def mapIdlTypeToTsList : List IdlType → List String
  | [] => []
  | t :: ts => mapIdlTypeToTs t :: mapIdlTypeToTsList ts
termination_by structural ts => ts
end

mutual
/-- `serializeIdlType` from the TypeScript SDK loader (joins union members
with `" or "`; the falsy check `!idlType` precedes the string check, so an
empty-string descriptor serializes as `"any"`). -/
def serializeIdlType : IdlType → String
  | .null => "any"
  | .str s => if s == "" then "any" else s
  | .list ts => String.intercalate " or " (serializeIdlTypeList ts)
  | .node u g inner =>
    if u && inner.isList then serializeIdlType inner
    else if g != "" then g ++ "<" ++ serializeIdlType inner ++ ">"
    else if inner.truthy then serializeIdlType inner
    else "any"
termination_by structural t => t

def serializeIdlTypeList : List IdlType → List String
  | [] => []
  | t :: ts => serializeIdlType t :: serializeIdlTypeList ts
termination_by structural ts => ts
end

mutual
/-- `serializeIdlType` from the JavaScript SDK (the string check precedes the
falsy check, and the non-generic case recurses without a truthiness guard). -/
def serializeIdlTypeJs : IdlType → String
  | .str s => s
  | .list ts => String.intercalate " or " (serializeIdlTypeJsList ts)
  | .null => "any"
  | .node u g inner =>
    if u && inner.isList then serializeIdlTypeJs inner
    else if g != "" then g ++ "<" ++ serializeIdlTypeJs inner ++ ">"
    else serializeIdlTypeJs inner
termination_by structural t => t

def serializeIdlTypeJsList : List IdlType → List String
  | [] => []
  | t :: ts => serializeIdlTypeJs t :: serializeIdlTypeJsList ts
termination_by structural ts => ts
end

mutual
/-- `idlTypeName` from the conformance test harness: reduces a descriptor to
a bare name (or `null`), joining array members with `"|"` (JS `Array.join`
renders a `null` member as the empty string). -/
def idlTypeName : IdlType → Option String
  | .null => none
  | .str s => if s == "" then none else some s
  | .list ts => some (String.intercalate "|" (idlTypeNameList ts))
  | .node _ _ inner => if inner.truthy then idlTypeName inner else none
termination_by structural t => t

def idlTypeNameList : List IdlType → List String
  | [] => []
  | t :: ts => (idlTypeName t).getD "" :: idlTypeNameList ts
termination_by structural ts => ts
end

/-- JS `Set.add` with insertion-order iteration: append if absent. -/
def setAdd (s : List String) (x : String) : List String :=
  if s.contains x then s else s ++ [x]

mutual
/-- `collectCustomTypes` from the generator: accumulates every bare name that
the primitive table leaves unchanged, is not `"any"`, and does not start with
the `"Promise"` or `"Array"` markers; recurses through arrays, unions,
generics and nested descriptors. -/
def collectCustomTypes (types : List String) : IdlType → List String
  | .null => types
  | .str s =>
    let mapped := mapPrimitive s
    if mapped == s && mapped != "any" && !(strStartsWith mapped "Promise") && !(strStartsWith mapped "Array") then
      setAdd types mapped
    else types
  | .list ts => collectCustomTypesList types ts
  | .node u g inner =>
    if u && inner.isList then collectCustomTypes types inner
    else if g != "" then collectCustomTypes types inner
    else if inner.truthy then collectCustomTypes types inner
    else types
termination_by structural t => t

def collectCustomTypesList (types : List String) : List IdlType → List String
  | [] => types
  | t :: ts => collectCustomTypesList (collectCustomTypes types t) ts
termination_by structural ts => ts
end

/-- The right-hand side of a parsed extended attribute: either a bare string
(`typeof rhs === "string"`) or an object whose `value` field may or may not be
a string (identifier lists and other shapes model as `robj none`). -/
inductive ExtRhs where
  | rstr (s : String)
  | robj (value : Option String)

/-- A parsed extended attribute: a name plus an optional right-hand side. -/
structure ExtAttr where
  name : String
  rhs : Option ExtRhs

/-- `getExtAttrValue` as written in the TypeScript SDK loader: find the named
attribute, take its string-shaped value (bare string rhs, or the rhs object's
string `value`), and strip one layer of surrounding double quotes. -/
def getExtAttrValue (extAttrs : Option (List ExtAttr)) (name : String) : Option String :=
  match extAttrs with
  | none => none
  | some attrs =>
    match attrs.find? (fun attr => attr.name == name) with
    | none => none
    | some found =>
      let value : Option String :=
        match found.rhs with
        | some (.rstr s) => some s
        | some (.robj v) => v
        | none => none
      match value with
      | none => none
      | some v =>
        if strStartsWith v "\"" && strEndsWith v "\"" then some ((v.drop 1).dropRight 1)
        else some v

/-- The textually identical copy of `getExtAttrValue` in the code generator. -/
def getExtAttrValueGen (extAttrs : Option (List ExtAttr)) (name : String) : Option String :=
  match extAttrs with
  | none => none
  | some attrs =>
    match attrs.find? (fun attr => attr.name == name) with
    | none => none
    | some found =>
      let value : Option String :=
        match found.rhs with
        | some (.rstr s) => some s
        | some (.robj v) => v
        | none => none
      match value with
      | none => none
      | some v =>
        if strStartsWith v "\"" && strEndsWith v "\"" then some ((v.drop 1).dropRight 1)
        else some v

/-- The textually identical copy of `getExtAttrValue` in the conformance test
harness. -/
def getExtAttrValueTest (extAttrs : Option (List ExtAttr)) (name : String) : Option String :=
  match extAttrs with
  | none => none
  | some attrs =>
    match attrs.find? (fun attr => attr.name == name) with
    | none => none
    | some found =>
      let value : Option String :=
        match found.rhs with
        | some (.rstr s) => some s
        | some (.robj v) => v
        | none => none
      match value with
      | none => none
      | some v =>
        if strStartsWith v "\"" && strEndsWith v "\"" then some ((v.drop 1).dropRight 1)
        else some v

/-- The textually identical copy of `getExtAttrValue` in the JavaScript SDK. -/
def getExtAttrValueSdkJs (extAttrs : Option (List ExtAttr)) (name : String) : Option String :=
  match extAttrs with
  | none => none
  | some attrs =>
    match attrs.find? (fun attr => attr.name == name) with
    | none => none
    | some found =>
      let value : Option String :=
        match found.rhs with
        | some (.rstr s) => some s
        | some (.robj v) => v
        | none => none
      match value with
      | none => none
      | some v =>
        if strStartsWith v "\"" && strEndsWith v "\"" then some ((v.drop 1).dropRight 1)
        else some v

/-- A parsed interface member (the fields the embedded code reads): member
kind tag, optional operation name, extended attributes, argument list, and
the member's (return) type descriptor. -/
structure IdlArg where
  name : String
  idlType : IdlType

structure IdlMember where
  type : String
  name : Option String
  extAttrs : Option (List ExtAttr)
  arguments : List IdlArg
  idlType : IdlType

/-- A parsed top-level definition: kind tag (`"interface"` for interfaces),
name, extended attributes, members.  A definition AST is a `List IdlDef`. -/
structure IdlDef where
  type : String
  name : String
  extAttrs : Option (List ExtAttr)
  members : List IdlMember

/-- One parameter of the normalized interface model. -/
structure AgentMethodParam where
  name : String
  type : String

/-- One operation of the normalized model built by the TypeScript SDK loader:
`intent` is a plain string (empty when unspecified, via `|| ""`). -/
structure AgentMethodDef where
  name : String
  intent : String
  proof : Option String
  returnType : String
  params : List AgentMethodParam

/-- The normalized interface model of the TypeScript SDK loader. -/
structure AgentInterfaceDef where
  name : String
  context : Option String
  semantic : Option String
  methods : List (String × AgentMethodDef)

/-- The record the TypeScript loader stores for one named operation member. -/
def methodDefOfTs (nm : String) (member : IdlMember) : AgentMethodDef :=
  { name := nm
    intent := (getExtAttrValue member.extAttrs "Intent").getD ""
    proof := getExtAttrValue member.extAttrs "Proof"
    returnType := serializeIdlType member.idlType
    params := member.arguments.map (fun arg => { name := arg.name, type := serializeIdlType arg.idlType }) }

/-- The two early returns of the TypeScript member loop
(`if (member.type !== "operation") return; if (!member.name) return;`):
`some nm` exactly when the member is an operation with a truthy name. -/
def tsOpKey (member : IdlMember) : Option String :=
  if member.type == "operation" then
    match member.name with
    | some nm => if nm == "" then none else some nm
    | none => none
  else none

/-- The member loop of the TypeScript `loadAgentInterface`: skips non-operation
members and members with a falsy name, and assigns `methods[name]`
(last declaration wins). -/
def buildMethodsTsAux (acc : List (String × AgentMethodDef)) :
    List IdlMember → List (String × AgentMethodDef)
  | [] => acc
  | member :: rest =>
    match tsOpKey member with
    | some nm => buildMethodsTsAux (mapSet acc nm (methodDefOfTs nm member)) rest
    | none => buildMethodsTsAux acc rest

/-- `loadAgentInterface` from the TypeScript SDK, on an already-parsed AST
(file reading and grammar parsing are external collaborators).  Throwing
becomes `Except.error` with the thrown message. -/
def loadAgentInterfaceTs (ast : List IdlDef) : Except String AgentInterfaceDef :=
  match ast.find? (fun d => d.type == "interface") with
  | none => .error "No interface definition found in IDL."
  | some iface =>
    .ok { name := iface.name
          context := getExtAttrValue iface.extAttrs "Context"
          semantic := getExtAttrValue iface.extAttrs "Semantic"
          methods := buildMethodsTsAux [] iface.members }

/-- One operation of the model built by the JavaScript SDK loader: note that
`intent` is the raw reader result, with no `|| ""` default, and the `name`
field keeps the possibly-absent member name. -/
structure AgentMethodDefJs where
  name : Option String
  intent : Option String
  proof : Option String
  returnType : String
  params : List AgentMethodParam

/-- The normalized interface model of the JavaScript SDK loader. -/
structure AgentInterfaceDefJs where
  name : String
  context : Option String
  semantic : Option String
  methods : List (String × AgentMethodDefJs)

/-- The record the JavaScript loader stores for one operation member. -/
def methodDefOfJs (member : IdlMember) : AgentMethodDefJs :=
  { name := member.name
    intent := getExtAttrValueSdkJs member.extAttrs "Intent"
    proof := getExtAttrValueSdkJs member.extAttrs "Proof"
    returnType := serializeIdlTypeJs member.idlType
    params := member.arguments.map (fun arg => { name := arg.name, type := serializeIdlTypeJs arg.idlType }) }

/-- The single early return of the JavaScript member loop
(`if (member.type !== "operation") return;`): `some key` exactly when the
member is an operation; there is no name guard, so an absent name is coerced
to the object key `"undefined"`. -/
def jsOpKey (member : IdlMember) : Option String :=
  if member.type == "operation" then some (jsKey member.name) else none

/-- The member loop of the JavaScript `loadAgentInterface`. -/
def buildMethodsJsAux (acc : List (String × AgentMethodDefJs)) :
    List IdlMember → List (String × AgentMethodDefJs)
  | [] => acc
  | member :: rest =>
    match jsOpKey member with
    | some key => buildMethodsJsAux (mapSet acc key (methodDefOfJs member)) rest
    | none => buildMethodsJsAux acc rest

/-- `loadAgentInterface` from the JavaScript SDK, on an already-parsed AST. -/
def loadAgentInterfaceJs (ast : List IdlDef) : Except String AgentInterfaceDefJs :=
  match ast.find? (fun d => d.type == "interface") with
  | none => .error "No interface definition found in IDL."
  | some iface =>
    .ok { name := iface.name
          context := getExtAttrValueSdkJs iface.extAttrs "Context"
          semantic := getExtAttrValueSdkJs iface.extAttrs "Semantic"
          methods := buildMethodsJsAux [] iface.members }

/-- An agent message (`from`/`to` renamed `fromId`/`toId`; `from` is reserved
in Lean). -/
structure AgentMessage where
  fromId : Option String
  toId : Option String
  intent : String
  proof : Option String
  payload : List (String × JSValue)
  timestamp : Option String

/-- Runtime dispatch errors.  The source throws `Error` objects whose messages
are `"No handler registered for intent: " + intent` and
`"Method not defined in interface: " + methodName`; the constructors carry the
interpolated part. -/
inductive RuntimeError where
  | unhandledIntent (intent : String)
  | unknownMethod (methodName : String)
deriving DecidableEq

/-- An `AgentRuntime` instance: identity, interface model, intent→handler
table.  Handlers are modelled as pure functions into an arbitrary result type
`R` (the awaited handler result). -/
structure AgentRuntime (R : Type) where
  id : String
  interfaceDef : AgentInterfaceDef
  intentHandlers : List (String × (AgentMessage → R))

/-- `registerIntent`: insert or overwrite the handler table entry (explicit
state passing for `this.intentHandlers.set`). -/
def AgentRuntime.registerIntent {R : Type} (a : AgentRuntime R) (intent : String)
    (handler : AgentMessage → R) : AgentRuntime R :=
  { a with intentHandlers := mapSet a.intentHandlers intent handler }

/-- `receive`: look up the message intent; throw `UnhandledIntent` when no
handler is registered, otherwise return the handler applied to the message. -/
def AgentRuntime.receive {R : Type} (a : AgentRuntime R) (message : AgentMessage) :
    Except RuntimeError R :=
  match mapGet a.intentHandlers message.intent with
  | none => .error (.unhandledIntent message.intent)
  | some handler => .ok (handler message)

/-- `invokeIntent`: build a message stamped with the caller and target ids and
the ambient clock (`new Date().toISOString()` passed explicitly as `now`), and
deliver it through `target.receive`.  Note `proof: proof || null`. -/
def AgentRuntime.invokeIntent {R : Type} (self targetAgent : AgentRuntime R)
    (now intent : String) (payload : List (String × JSValue)) (proof : Option String) :
    Except RuntimeError R :=
  targetAgent.receive
    { fromId := some self.id, toId := some targetAgent.id, intent := intent,
      proof := jsOrNull proof, payload := payload, timestamp := some now }

/-- The payload loop of `callMethod`:
`method.params.forEach((param, index) => payload[param.name] = args[index])`;
an out-of-range positional read is `undefined`. -/
def buildPayloadAux (args : List JSValue) (index : Nat) (payload : List (String × JSValue)) :
    List AgentMethodParam → List (String × JSValue)
  | [] => payload
  | param :: rest =>
    buildPayloadAux args (index + 1) (mapSet payload param.name (args.getD index .undefVal)) rest

/-- The payload map `callMethod` builds from declared parameters and the
positional arguments. -/
def buildPayload (params : List AgentMethodParam) (args : List JSValue) :
    List (String × JSValue) :=
  buildPayloadAux args 0 [] params

/-- `callMethod`: look up the operation in the caller's own interface model,
throw `UnknownMethod` when absent, otherwise map positional arguments to
declared parameter names and delegate to `invokeIntent` with the operation's
intent and `method.proof || null`. -/
def AgentRuntime.callMethod {R : Type} (self targetAgent : AgentRuntime R)
    (now methodName : String) (args : List JSValue) : Except RuntimeError R :=
  match mapGet self.interfaceDef.methods methodName with
  | none => .error (.unknownMethod methodName)
  | some method =>
    self.invokeIntent targetAgent now method.intent (buildPayload method.params args)
      (jsOrNull method.proof)

/-- One entry of the generator's per-operation metadata (`methodMeta`). -/
structure MethodMeta where
  name : String
  intent : String
  proof : Option String
  params : List AgentMethodParam
  returnType : String

/-- The `intents` registry object emitted into the generated module:
`name: { intent: "...", proof: <proof or null> }` per operation, with JS
object-literal semantics (duplicate keys: last wins).  The emitted proof is
`method.proof ? "..." : "null"`, i.e. truthiness-normalized. -/
def intentsObj (meta : List MethodMeta) : List (String × (String × Option String)) :=
  meta.foldl (fun acc m => mapSet acc m.name (m.intent, jsOrNull m.proof)) []

/-- The intent string a generated client stub sends for operation `opName`:
the emitted stub reads `intents.<name>.intent`. -/
def clientSendsIntent (meta : List MethodMeta) (opName : String) : Option String :=
  (mapGet (intentsObj meta) opName).map (fun e => e.1)

/-- The intent expression the generated registrar evaluates for the entry of
method `m`: it reads the same `intents.<name>.intent` registry field (the
lookup always succeeds when `m` is one of the generated methods; `""` is an
unreachable fallback making the function total). -/
def registrarIntentFor (meta : List MethodMeta) (m : MethodMeta) : String :=
  ((mapGet (intentsObj meta) m.name).map (fun e => e.1)).getD ""

/-- JS property read from a payload object (`message.payload.<param>`). -/
def payloadGet (payload : List (String × JSValue)) (k : String) : JSValue :=
  (mapGet payload k).getD .undefVal

/-- The generated `registerHandlers(runtime, handlers)`: for each operation it
calls `runtime.registerIntent(intents.<name>.intent, wrapper)` where the
wrapper extracts the payload fields named by the declared parameters and
passes them, with the message, to the user handler for that operation. -/
def registerHandlersGen {R : Type} (meta : List MethodMeta) (runtime : AgentRuntime R)
    (handlers : String → List JSValue → AgentMessage → R) : AgentRuntime R :=
  meta.foldl (fun rt m =>
    rt.registerIntent (registrarIntentFor meta m)
      (fun message => handlers m.name (m.params.map (fun p => payloadGet message.payload p.name)) message))
    runtime

/-- The collected custom-type set of `generate`: fold `collectCustomTypes`
over every operation's argument types and return type, in order. -/
def collectedTypes (iface : IdlDef) : List String :=
  (iface.members.filter (fun m => m.type == "operation")).foldl
    (fun acc m =>
      collectCustomTypes (m.arguments.foldl (fun a arg => collectCustomTypes a arg.idlType) acc) m.idlType)
    []

/-- The custom-type names `generate` actually emits opaque placeholders for:
the collected set filtered by
`![iface.name, "Promise", "Array"].includes(typeName)`. -/
def usedCustomTypeNames (iface : IdlDef) : List String :=
  (collectedTypes iface).filter (fun typeName => !([iface.name, "Promise", "Array"].contains typeName))

/-- The rule set consumed by the definition check (`core.json`): absent list
fields model as `[]` (the source applies `|| []`), while `delegationParamType`
keeps its raw optional value because the source both defaults it with
`|| "DelegationContext"` and tests its truthiness for the delegation
profile. -/
structure CoreRules where
  allowedExtAttrs : List String
  requiredInterfaceAttrs : List String
  requiredOperationAttrs : List String
  delegationParamType : Option String

/-- The missing-required-interface-attribute message of `validateIdlAst`. -/
def missingIfaceAttrMsg (iface : IdlDef) (req : String) : String :=
  "Missing required interface attribute " ++ req ++ " on " ++ iface.name

/-- The missing-required-operation-attribute message of `validateIdlAst`. -/
def missingOpAttrMsg (iface : IdlDef) (member : IdlMember) (req : String) : String :=
  "Missing required operation attribute " ++ req ++ " on " ++ iface.name ++ "." ++ jsKey member.name

/-- The unknown-attribute loop over an interface's extended attributes. -/
def ifaceUnknownAttrErrors (coreRules : CoreRules) (iface : IdlDef) : List String :=
  (iface.extAttrs.getD []).filterMap (fun attr =>
    if coreRules.allowedExtAttrs.contains attr.name then none
    else some ("Unknown extended attribute on interface " ++ iface.name ++ ": " ++ attr.name))

/-- The unknown-attribute loop over an operation member's attributes. -/
def memberUnknownAttrErrors (coreRules : CoreRules) (iface : IdlDef) (member : IdlMember) : List String :=
  (member.extAttrs.getD []).filterMap (fun attr =>
    if coreRules.allowedExtAttrs.contains attr.name then none
    else some ("Unknown extended attribute on " ++ iface.name ++ "." ++ jsKey member.name ++ ": " ++ attr.name))

/-- The delegation-parameter check of `validateIdlAst` for one operation. -/
def delegationErrors (coreRules : CoreRules) (iface : IdlDef) (member : IdlMember) : List String :=
  let delegationParamType := jsOrDefaultStr coreRules.delegationParamType "DelegationContext"
  let delegationValue := getExtAttrValueTest (some (member.extAttrs.getD [])) "Delegation"
  if !(jsFalsyOptStr delegationValue) then
    if member.arguments.any (fun arg => idlTypeName arg.idlType == some delegationParamType) then []
    else ["Delegation attribute requires " ++ delegationParamType ++ " parameter on " ++
          iface.name ++ "." ++ jsKey member.name]
  else []

/-- `validateIdlAst` from the conformance test harness: the early
no-interface return, then per interface the unknown-attribute findings, the
required interface attributes (a finding when the reader's result is falsy),
per operation member the unknown-attribute findings, required operation
attributes and the delegation-parameter rule, and finally the delegation
profile check.  Findings accumulate; nothing short-circuits. -/
def validateIdlAst (ast : List IdlDef) (coreRules : CoreRules) (profile : String) : List String :=
  let interfaces := ast.filter (fun d => d.type == "interface")
  if interfaces.isEmpty then ["No interface definitions found."]
  else
    (interfaces.flatMap (fun iface =>
      ifaceUnknownAttrErrors coreRules iface
      ++ coreRules.requiredInterfaceAttrs.filterMap (fun req =>
           if jsFalsyOptStr (getExtAttrValueTest (some (iface.extAttrs.getD [])) req) then
             some (missingIfaceAttrMsg iface req)
           else none)
      ++ iface.members.flatMap (fun member =>
           if member.type == "operation" then
             memberUnknownAttrErrors coreRules iface member
             ++ coreRules.requiredOperationAttrs.filterMap (fun req =>
                  if jsFalsyOptStr (getExtAttrValueTest (some (member.extAttrs.getD [])) req) then
                    some (missingOpAttrMsg iface member req)
                  else none)
             ++ delegationErrors coreRules iface member
           else [])))
    ++ (if profile == "delegation" && jsFalsyOptStr coreRules.delegationParamType then
          ["Delegation profile requires delegation parameter type rule."] else [])

/-- The rule set consumed by the delegation-context check
(`delegation.json`). -/
structure DelegationRules where
  requiredDelegationFields : List String
  proofType : Option String

/-- JS property read on the context document. -/
def ctxGet (ctx : List (String × JSValue)) (k : String) : JSValue :=
  (mapGet ctx k).getD .undefVal

/-- `validateDelegationContext` from the conformance test harness.
`Date.parse` is environment-defined, so its NaN test is passed in as the
oracle `dateParseIsNaN`; no claim depends on its value. -/
def validateDelegationContext (ctx : List (String × JSValue)) (rules : DelegationRules)
    (dateParseIsNaN : JSValue → Bool) : List String :=
  (rules.requiredDelegationFields.filterMap (fun field =>
    if jsIsUndefined (ctxGet ctx field) || jsIsNull (ctxGet ctx field) then
      some ("Missing delegation field: " ++ field)
    else none))
  ++ (if jsTruthy (ctxGet ctx "proof") then
        match rules.proofType with
        | some proofType =>
          if proofType != "" && !(jsStrictEqStr (getProp (ctxGet ctx "proof") "type") proofType) then
            ["Invalid proof.type (expected " ++ proofType ++ ")."]
          else []
        | none => []
      else [])
  ++ (if jsTruthy (ctxGet ctx "issuedAt") && dateParseIsNaN (ctxGet ctx "issuedAt") then
        ["Invalid issuedAt timestamp."] else [])
  ++ (if jsTruthy (ctxGet ctx "expiresAt") && dateParseIsNaN (ctxGet ctx "expiresAt") then
        ["Invalid expiresAt timestamp."] else [])
  ++ (if jsIsTrue (ctxGet ctx "revoked") then ["Delegation context is revoked."] else [])

def c4Iface : AgentInterfaceDef :=
  { name := "AgentTask", context := none, semantic := none, methods := [] }

def c4Empty : AgentRuntime String :=
  { id := "agent:Seller", interfaceDef := c4Iface, intentHandlers := [] }

def c4Agent : AgentRuntime String := c4Empty.registerIntent "agent:Ping" (fun _ => "pong")

def c4Msg : AgentMessage :=
  { fromId := some "agent:Buyer", toId := some "agent:Seller", intent := "agent:Ping",
    proof := none, payload := [], timestamp := none }

def c5Ctx : List (String × JSValue) :=
  [("delegator", .str "did:example:alice"), ("delegatee", .str "did:example:bob"),
   ("proof", .obj [("type", .str "Ed25519Signature2020")]),
   ("issuedAt", .str "2026-01-01T00:00:00Z"), ("expiresAt", .str "2027-01-01T00:00:00Z"),
   ("revoked", .bool true)]

def c5Rules : DelegationRules :=
  { requiredDelegationFields := ["delegator", "delegatee", "proof"],
    proofType := some "Ed25519Signature2020" }

def c8Iface : IdlDef :=
  { type := "interface", name := "AgentTask", extAttrs := none,
    members :=
      [{ type := "operation", name := some "proposeContract", extAttrs := some [],
         arguments := [{ name := "data", idlType := .node false "" (.str "ContractData") }],
         idlType := .node false "Promise" (.node false "" (.str "Outcome")) },
       { type := "operation", name := some "loop", extAttrs := some [],
         arguments := [{ name := "x", idlType := .node false "" (.str "AgentTask") }],
         idlType := .node false "Promise" (.node false "" (.str "AgentTask")) }] }

def c2Member : IdlMember :=
  { type := "operation", name := some "ping", extAttrs := some [],
    arguments := [], idlType := .null }

def c2Iface : IdlDef :=
  { type := "interface", name := "AgentTask", extAttrs := none, members := [c2Member] }

def w2Attr : ExtAttr := { name := "Intent", rhs := some (.robj (some "\"agent:Ping\"")) }

def w2Member : IdlMember :=
  { type := "operation", name := some "ping", extAttrs := some [w2Attr],
    arguments := [], idlType := .null }

def w2Iface : IdlDef :=
  { type := "interface", name := "AgentTask", extAttrs := none, members := [w2Member] }

def w2Meth : AgentMethodDef := methodDefOfTs "ping" w2Member

def w2Def : AgentInterfaceDef :=
  { name := "AgentTask", context := none, semantic := none, methods := [("ping", w2Meth)] }

/-- C3 (counterexample): an operation whose `Proof` attribute resolved to the
empty string: `callMethod` delivers a message carrying `proof = null`, not the
operation's proof value `""` — an identity handler on the target returns the
delivered message, exposing its fields. -/
def c3Method : AgentMethodDef :=
  { name := "m", intent := "agent:M", proof := some "", returnType := "any", params := [] }

def c3Iface : AgentInterfaceDef :=
  { name := "AgentTask", context := none, semantic := none, methods := [("m", c3Method)] }

def c3Target : AgentRuntime AgentMessage :=
  { id := "agent:Seller", interfaceDef := c3Iface,
    intentHandlers := [("agent:M", fun message => message)] }

def c3Self : AgentRuntime AgentMessage :=
  { id := "agent:Buyer", interfaceDef := c3Iface, intentHandlers := [] }

def w3Method : AgentMethodDef :=
  { name := "executePayment", intent := "agent:ExecutePayment", proof := some "ledger:tx",
    returnType := "Promise<Receipt>", params := [{ name := "payment", type := "PaymentRequest" }] }

def w3Iface : AgentInterfaceDef :=
  { name := "AgentTask", context := none, semantic := none,
    methods := [("executePayment", w3Method)] }

def w3Target : AgentRuntime AgentMessage :=
  { id := "agent:Seller", interfaceDef := w3Iface,
    intentHandlers := [("agent:ExecutePayment", fun message => message)] }

def w3Self : AgentRuntime AgentMessage :=
  { id := "agent:Buyer", interfaceDef := w3Iface, intentHandlers := [] }

def w10Method : AgentMethodDef :=
  { name := "performTask", intent := "agent:PerformTask", proof := none, returnType := "any",
    params := [{ name := "ctx", type := "DelegationContext" },
               { name := "request", type := "TaskRequest" }] }

def w10Iface : AgentInterfaceDef :=
  { name := "AgentTask", context := none, semantic := none,
    methods := [("performTask", w10Method)] }

def w10Target : AgentRuntime AgentMessage :=
  { id := "agent:B", interfaceDef := w10Iface,
    intentHandlers := [("agent:PerformTask", fun message => message)] }

def w10Self : AgentRuntime AgentMessage :=
  { id := "agent:A", interfaceDef := w10Iface, intentHandlers := [] }

def c6Attr : ExtAttr := { name := "Context", rhs := some (.robj (some "\"\"")) }

def c6Iface : IdlDef :=
  { type := "interface", name := "AgentTask", extAttrs := some [c6Attr], members := [] }

def c6Rules : CoreRules :=
  { allowedExtAttrs := ["Context"], requiredInterfaceAttrs := ["Context"],
    requiredOperationAttrs := [], delegationParamType := none }

/-- The per-operation metadata of the concrete generated module shipped in
the repository (`proposeContract` and `executePayment`). -/
def demoMeta : List MethodMeta :=
  [{ name := "proposeContract", intent := "agent:ProposeContract", proof := none,
     params := [{ name := "data", type := "ContractData" }], returnType := "Promise<Outcome>" },
   { name := "executePayment", intent := "agent:ExecutePayment", proof := some "ledger:tx",
     params := [{ name := "payment", type := "PaymentRequest" }], returnType := "Promise<Receipt>" }]

def demoM1 : MethodMeta :=
  { name := "proposeContract", intent := "agent:ProposeContract", proof := none,
    params := [{ name := "data", type := "ContractData" }], returnType := "Promise<Outcome>" }

def demoRt : AgentRuntime String :=
  { id := "agent:Seller", interfaceDef := c4Iface, intentHandlers := [] }

def demoMsg : AgentMessage :=
  { fromId := some "agent:Buyer", toId := some "agent:Seller",
    intent := "agent:ProposeContract", proof := none,
    payload := [("data", .obj [("price", .num 5000)])], timestamp := none }

/-! ### Association list lemmas -/

theorem mapGet_mapSet_self {V : Type} (m : List (String × V)) (k : String) (v : V) :
    mapGet (mapSet m k v) k = some v := by
  induction m with
  | nil => simp [mapSet, mapGet]
  | cons hd tl ih =>
    obtain ⟨k0, v0⟩ := hd
    by_cases h : k0 == k
    · simp [mapSet, h, mapGet]
    · simp [mapSet, h, mapGet, ih]

theorem mapGet_mapSet_ne {V : Type} (m : List (String × V)) (k k0 : String) (v : V)
    (h : k0 ≠ k) : mapGet (mapSet m k v) k0 = mapGet m k0 := by
  induction m with
  | nil => simp [mapSet, mapGet, Ne.symm h]
  | cons hd tl ih =>
    obtain ⟨k1, v1⟩ := hd
    by_cases h1 : k1 == k
    · have hk1 : k1 = k := by simpa using h1
      subst hk1
      simp [mapSet, mapGet, Ne.symm h]
    · simp [mapSet, h1, mapGet, ih]

theorem mapGet_mapSet_isSome {V : Type} (m : List (String × V)) (k k0 : String) (v : V)
    (h : (mapGet m k0).isSome) : (mapGet (mapSet m k v) k0).isSome := by
  by_cases hk : k0 = k
  · subst hk; simp [mapGet_mapSet_self]
  · rw [mapGet_mapSet_ne m k k0 v hk]; exact h

theorem mem_mapSet {V : Type} (m : List (String × V)) (k : String) (v : V)
    (e : String × V) (h : e ∈ mapSet m k v) : e = (k, v) ∨ e ∈ m := by
  induction m with
  | nil => simpa [mapSet] using h
  | cons hd tl ih =>
    obtain ⟨k0, v0⟩ := hd
    by_cases h0 : k0 == k
    · simp only [mapSet, h0, if_true] at h
      rcases List.mem_cons.mp h with h1 | h2
      · exact Or.inl h1
      · exact Or.inr (List.mem_cons_of_mem _ h2)
    · simp only [mapSet, h0] at h
      rw [if_neg (by simp [h0])] at h
      rcases List.mem_cons.mp h with h1 | h2
      · exact Or.inr (h1 ▸ List.mem_cons_self _ _)
      · rcases ih h2 with h3 | h3
        · exact Or.inl h3
        · exact Or.inr (List.mem_cons_of_mem _ h3)

/-! ### C1: the primitive mapping table -/

/-- C1 (counterexample): the name `Any` falls in none of the claim's
recognized families, yet `mapPrimitive` does not pass it through unchanged —
any case-variant of `any` is mapped to the `"any"` placeholder. -/
theorem C1_counterexample :
    mapPrimitive "Any" = "any" ∧ mapPrimitive "Any" ≠ "Any" ∧
    strToLower "Any" ≠ "boolean" ∧
    ¬ (strToLower "Any" = "byte" ∨ strToLower "Any" = "octet" ∨
        strIncludes (strToLower "Any") "short" = true ∨
        strIncludes (strToLower "Any") "long" = true) ∧
    ¬ (strToLower "Any" = "double" ∨ strToLower "Any" = "float") ∧
    ¬ (strToLower "Any" = "domstring" ∨ strToLower "Any" = "usvstring" ∨
        strToLower "Any" = "string") := by decide

/-- C1 (amended): the primitive table, on the lowercased name: `boolean` maps
to `boolean`; `byte`, `octet` and any name containing `short` or `long` map to
`number`; `double`/`float` map to `number`; the string family maps to
`string`; `any` maps to `any`; every other name passes through unchanged. -/
theorem C1_mapPrimitive_table (s : String) :
    (strToLower s = "boolean" → mapPrimitive s = "boolean") ∧
    ((strToLower s = "byte" ∨ strToLower s = "octet" ∨
        strIncludes (strToLower s) "short" = true ∨
        strIncludes (strToLower s) "long" = true) → mapPrimitive s = "number") ∧
    ((strToLower s = "double" ∨ strToLower s = "float") → mapPrimitive s = "number") ∧
    ((strToLower s = "domstring" ∨ strToLower s = "usvstring" ∨ strToLower s = "string") →
      mapPrimitive s = "string") ∧
    (strToLower s = "any" → mapPrimitive s = "any") ∧
    (strToLower s ≠ "boolean" → strToLower s ≠ "byte" → strToLower s ≠ "octet" →
      strIncludes (strToLower s) "short" = false → strIncludes (strToLower s) "long" = false →
      strToLower s ≠ "double" → strToLower s ≠ "float" → strToLower s ≠ "domstring" →
      strToLower s ≠ "usvstring" → strToLower s ≠ "string" → strToLower s ≠ "any" →
      mapPrimitive s = s) := by
  unfold mapPrimitive
  refine ⟨?_, ?_, ?_, ?_, ?_, ?_⟩
  · intro h; rw [h, if_pos rfl]
  · rintro (h | h | h | h)
    · rw [h, if_neg (by decide), if_pos (Or.inl rfl)]
    · rw [h, if_neg (by decide), if_pos (Or.inr (Or.inl rfl))]
    · rw [if_neg (fun heq => absurd (heq ▸ h) (by decide)),
        if_pos (Or.inr (Or.inr (Or.inl h)))]
    · rw [if_neg (fun heq => absurd (heq ▸ h) (by decide)),
        if_pos (Or.inr (Or.inr (Or.inr h)))]
  · rintro (h | h)
    · rw [h, if_neg (by decide), if_neg (by decide), if_pos (Or.inl rfl)]
    · rw [h, if_neg (by decide), if_neg (by decide), if_pos (Or.inr rfl)]
  · rintro (h | h | h)
    · rw [h, if_neg (by decide), if_neg (by decide), if_neg (by decide), if_pos (Or.inl rfl)]
    · rw [h, if_neg (by decide), if_neg (by decide), if_neg (by decide),
        if_pos (Or.inr (Or.inl rfl))]
    · rw [h, if_neg (by decide), if_neg (by decide), if_neg (by decide),
        if_pos (Or.inr (Or.inr rfl))]
  · intro h
    rw [h, if_neg (by decide), if_neg (by decide), if_neg (by decide), if_neg (by decide),
      if_pos rfl]
  · intro h1 h2 h3 h4 h5 h6 h7 h8 h9 h10 h11
    rw [if_neg h1,
      if_neg (by
        rintro (h | h | h | h)
        · exact h2 h
        · exact h3 h
        · rw [h] at h4; simp at h4
        · rw [h] at h5; simp at h5),
      if_neg (by rintro (h | h) <;> [exact h6 h; exact h7 h]),
      if_neg (by rintro (h | h | h) <;> [exact h8 h; exact h9 h; exact h10 h]),
      if_neg h11]

/-- C1 (witness): concrete rows of the table, via `C1_mapPrimitive_table`. -/
theorem C1_witness :
    mapPrimitive "boolean" = "boolean" ∧ mapPrimitive "unsigned long long" = "number" ∧
    mapPrimitive "DOMString" = "string" ∧ mapPrimitive "ContractData" = "ContractData" :=
  ⟨(C1_mapPrimitive_table "boolean").1 (by decide),
   (C1_mapPrimitive_table "unsigned long long").2.1 (Or.inr (Or.inr (Or.inr (by decide)))),
   (C1_mapPrimitive_table "DOMString").2.2.2.1 (Or.inl (by decide)),
   (C1_mapPrimitive_table "ContractData").2.2.2.2.2 (by decide) (by decide) (by decide)
     (by decide) (by decide) (by decide) (by decide) (by decide) (by decide) (by decide)
     (by decide)⟩

/-! ### C4: receive dispatch -/

/-- C4: `receive` fails with the unhandled-intent error exactly when no
handler is registered for `message.intent`; it never returns a value in that
case; and with a handler registered it returns the handler applied to the
message. -/
theorem C4_receive_dispatch {R : Type} (a : AgentRuntime R) (message : AgentMessage) :
    (a.receive message = .error (.unhandledIntent message.intent) ↔
      mapGet a.intentHandlers message.intent = none) ∧
    (mapGet a.intentHandlers message.intent = none → ∀ r : R, a.receive message ≠ .ok r) ∧
    (∀ handler, mapGet a.intentHandlers message.intent = some handler →
      a.receive message = .ok (handler message)) := by
  unfold AgentRuntime.receive
  cases h : mapGet a.intentHandlers message.intent with
  | none => simp
  | some handler => simp

/-- C4 (witness): a registered intent dispatches to its handler; the same
message against an agent with no handlers fails with the unhandled-intent
error. -/
theorem C4_witness :
    c4Agent.receive c4Msg = .ok "pong" ∧
    c4Empty.receive c4Msg = .error (.unhandledIntent "agent:Ping") :=
  ⟨(C4_receive_dispatch c4Agent c4Msg).2.2 (fun _ => "pong") rfl,
   (C4_receive_dispatch c4Empty c4Msg).1.mpr rfl⟩

/-! ### C5: revoked delegation contexts -/

/-- C5: a delegation-context document whose `revoked` field is strictly `true`
always yields the revoked-delegation finding, whatever the rule set, the other
fields and the timestamp oracle. -/
theorem C5_revoked_always_fails (ctx : List (String × JSValue)) (rules : DelegationRules)
    (dateParseIsNaN : JSValue → Bool) (h : jsIsTrue (ctxGet ctx "revoked") = true) :
    "Delegation context is revoked." ∈ validateDelegationContext ctx rules dateParseIsNaN := by
  unfold validateDelegationContext
  rw [if_pos h]
  simp

/-- C5 (witness): a fully well-formed document (all required fields present,
matching proof type, parseable timestamps) still fails — and the revocation
finding is its only finding. -/
theorem C5_witness :
    "Delegation context is revoked." ∈ validateDelegationContext c5Ctx c5Rules (fun _ => false) ∧
    validateDelegationContext c5Ctx c5Rules (fun _ => false) = ["Delegation context is revoked."] :=
  ⟨C5_revoked_always_fails c5Ctx c5Rules (fun _ => false) rfl, rfl⟩

/-! ### C8: custom-type collection -/

/-- C8: the custom-type names the generator emits opaque placeholders for
never include the interface's own name, the `Promise` marker or the `Array`
marker. -/
theorem C8_no_self_or_wrapper_markers (iface : IdlDef) :
    iface.name ∉ usedCustomTypeNames iface ∧ "Promise" ∉ usedCustomTypeNames iface ∧
    "Array" ∉ usedCustomTypeNames iface := by
  refine ⟨fun h => ?_, fun h => ?_, fun h => ?_⟩ <;>
  · have h2 := (List.mem_filter.mp h).2
    simp at h2

/-- C8 (witness): on a definition whose operations mention the interface's own
name and promise wrappers, the emitted placeholder set is exactly the real
custom types, via `C8_no_self_or_wrapper_markers`. -/
theorem C8_witness :
    "AgentTask" ∉ usedCustomTypeNames c8Iface ∧
    collectedTypes c8Iface = ["ContractData", "Outcome", "AgentTask"] ∧
    usedCustomTypeNames c8Iface = ["ContractData", "Outcome"] :=
  ⟨(C8_no_self_or_wrapper_markers c8Iface).1, rfl, rfl⟩

/-! ### C9: the extension-attribute reader copies -/

/-- C9: the four textual copies of `getExtAttrValue` (generator, TypeScript
SDK, JavaScript SDK, conformance test harness) are the same function: on every
attribute list and attribute name they return the same string-or-null result. -/
theorem C9_getExtAttrValue_copies_equal (extAttrs : Option (List ExtAttr)) (name : String) :
    getExtAttrValueGen extAttrs name = getExtAttrValue extAttrs name ∧
    getExtAttrValueTest extAttrs name = getExtAttrValue extAttrs name ∧
    getExtAttrValueSdkJs extAttrs name = getExtAttrValue extAttrs name :=
  ⟨rfl, rfl, rfl⟩

/-! ### C2: the interface model builders -/

theorem tsOpKey_some (member : IdlMember) (nm : String) (h : tsOpKey member = some nm) :
    member.type = "operation" ∧ member.name = some nm ∧ nm ≠ "" := by
  unfold tsOpKey at h
  by_cases ht : member.type == "operation"
  · rw [if_pos ht] at h
    cases hn : member.name with
    | none => rw [hn] at h; simp at h
    | some s =>
      rw [hn] at h
      by_cases hs : s == ""
      · simp [hs] at h
      · simp only [hs, Bool.false_eq_true, if_false, Option.some.injEq] at h
        subst h
        exact ⟨by simpa using ht, rfl, by simpa using hs⟩
  · rw [if_neg ht] at h; simp at h

theorem jsOpKey_some (member : IdlMember) (key : String) (h : jsOpKey member = some key) :
    member.type = "operation" ∧ key = jsKey member.name := by
  unfold jsOpKey at h
  by_cases ht : member.type == "operation"
  · rw [if_pos ht] at h
    exact ⟨by simpa using ht, by simpa using h.symm⟩
  · rw [if_neg ht] at h; simp at h

theorem mem_buildMethodsTsAux (members : List IdlMember) (acc : List (String × AgentMethodDef))
    (e : String × AgentMethodDef) (h : e ∈ buildMethodsTsAux acc members) :
    e ∈ acc ∨ ∃ member ∈ members, ∃ nm,
      tsOpKey member = some nm ∧ e = (nm, methodDefOfTs nm member) := by
  induction members generalizing acc with
  | nil => exact Or.inl h
  | cons member rest ih =>
    simp only [buildMethodsTsAux] at h
    cases hk : tsOpKey member with
    | some nm =>
      rw [hk] at h
      rcases ih _ h with h2 | ⟨mb, hmb, nm2, hk2, he2⟩
      · rcases mem_mapSet _ _ _ _ h2 with h3 | h3
        · exact Or.inr ⟨member, List.mem_cons_self _ _, nm, hk, h3⟩
        · exact Or.inl h3
      · exact Or.inr ⟨mb, List.mem_cons_of_mem _ hmb, nm2, hk2, he2⟩
    | none =>
      rw [hk] at h
      rcases ih _ h with h2 | ⟨mb, hmb, nm2, hk2, he2⟩
      · exact Or.inl h2
      · exact Or.inr ⟨mb, List.mem_cons_of_mem _ hmb, nm2, hk2, he2⟩

theorem mem_buildMethodsJsAux (members : List IdlMember) (acc : List (String × AgentMethodDefJs))
    (e : String × AgentMethodDefJs) (h : e ∈ buildMethodsJsAux acc members) :
    e ∈ acc ∨ ∃ member ∈ members, ∃ key,
      jsOpKey member = some key ∧ e = (key, methodDefOfJs member) := by
  induction members generalizing acc with
  | nil => exact Or.inl h
  | cons member rest ih =>
    simp only [buildMethodsJsAux] at h
    cases hk : jsOpKey member with
    | some key =>
      rw [hk] at h
      rcases ih _ h with h2 | ⟨mb, hmb, k2, hk2, he2⟩
      · rcases mem_mapSet _ _ _ _ h2 with h3 | h3
        · exact Or.inr ⟨member, List.mem_cons_self _ _, key, hk, h3⟩
        · exact Or.inl h3
      · exact Or.inr ⟨mb, List.mem_cons_of_mem _ hmb, k2, hk2, he2⟩
    | none =>
      rw [hk] at h
      rcases ih _ h with h2 | ⟨mb, hmb, k2, hk2, he2⟩
      · exact Or.inl h2
      · exact Or.inr ⟨mb, List.mem_cons_of_mem _ hmb, k2, hk2, he2⟩

/-- C2 (counterexample): on an operation member with no `Intent` extended
attribute, the JavaScript model builder records `intent = null` — not the
empty-string default the claim states — while the TypeScript builder records
`""`. -/
theorem C2_counterexample :
    (loadAgentInterfaceJs [c2Iface]).map
        (fun d => (mapGet d.methods "ping").map (fun m => m.intent)) = .ok (some none) ∧
    (loadAgentInterfaceTs [c2Iface]).map
        (fun d => (mapGet d.methods "ping").map (fun m => m.intent)) = .ok (some "") := by
  constructor <;> rfl

/-- C2 (amended): both model builders fail with the no-interface error exactly
when the AST contains no interface definition; for the first interface found,
every recorded operation carries, for some operation member of that interface,
the reader's `Proof` value as its proof (absent by default) — and its intent
is the reader's `Intent` value defaulted to the empty string in the TypeScript
builder, but the raw reader value (null when unspecified) in the JavaScript
builder. -/
theorem C2_model_builder (ast : List IdlDef) :
    (loadAgentInterfaceTs ast = .error "No interface definition found in IDL." ↔
      ast.find? (fun d => d.type == "interface") = none) ∧
    (loadAgentInterfaceJs ast = .error "No interface definition found in IDL." ↔
      ast.find? (fun d => d.type == "interface") = none) ∧
    ∀ iface, ast.find? (fun d => d.type == "interface") = some iface →
      (∀ d, loadAgentInterfaceTs ast = .ok d →
        ∀ e ∈ d.methods, ∃ member ∈ iface.members, member.type = "operation" ∧
          e.2.intent = (getExtAttrValue member.extAttrs "Intent").getD "" ∧
          e.2.proof = getExtAttrValue member.extAttrs "Proof") ∧
      (∀ d, loadAgentInterfaceJs ast = .ok d →
        ∀ e ∈ d.methods, ∃ member ∈ iface.members, member.type = "operation" ∧
          e.2.intent = getExtAttrValueSdkJs member.extAttrs "Intent" ∧
          e.2.proof = getExtAttrValueSdkJs member.extAttrs "Proof") := by
  refine ⟨?_, ?_, ?_⟩
  · unfold loadAgentInterfaceTs
    cases h : ast.find? (fun d => d.type == "interface") <;> simp
  · unfold loadAgentInterfaceJs
    cases h : ast.find? (fun d => d.type == "interface") <;> simp
  · intro iface hfind
    constructor
    · intro d hd e he
      rw [loadAgentInterfaceTs, hfind] at hd
      simp only [Except.ok.injEq] at hd
      rw [← hd] at he
      rcases mem_buildMethodsTsAux iface.members [] e he with h2 | ⟨member, hmb, nm, hk, he2⟩
      · simp at h2
      · obtain ⟨hop, _, _⟩ := tsOpKey_some member nm hk
        exact ⟨member, hmb, hop, by rw [he2]; rfl, by rw [he2]; rfl⟩
    · intro d hd e he
      rw [loadAgentInterfaceJs, hfind] at hd
      simp only [Except.ok.injEq] at hd
      rw [← hd] at he
      rcases mem_buildMethodsJsAux iface.members [] e he with h2 | ⟨member, hmb, key, hk, he2⟩
      · simp at h2
      · obtain ⟨hop, _⟩ := jsOpKey_some member key hk
        exact ⟨member, hmb, hop, by rw [he2]; rfl, by rw [he2]; rfl⟩

/-- C2 (witness): the empty AST fails with the no-interface error; on a
one-operation interface the recorded method's intent and proof are the reader
values, via `C2_model_builder`. -/
theorem C2_witness :
    loadAgentInterfaceTs ([] : List IdlDef) = .error "No interface definition found in IDL." ∧
    ∃ member ∈ w2Iface.members, member.type = "operation" ∧
      w2Meth.intent = (getExtAttrValue member.extAttrs "Intent").getD "" ∧
      w2Meth.proof = getExtAttrValue member.extAttrs "Proof" := by
  constructor
  · exact (C2_model_builder ([] : List IdlDef)).1.mpr rfl
  · exact ((C2_model_builder [w2Iface]).2.2 w2Iface rfl).1 w2Def rfl ("ping", w2Meth)
      (show ("ping", w2Meth) ∈ [("ping", w2Meth)] from List.mem_singleton.mpr rfl)

/-! ### C3 and C10: callMethod -/

theorem jsOrNull_idem (o : Option String) : jsOrNull (jsOrNull o) = jsOrNull o := by
  cases o with
  | none => rfl
  | some s =>
    by_cases h : s == ""
    · simp [jsOrNull, h]
    · simp [jsOrNull, h]

theorem buildPayloadAux_untouched (args : List JSValue) (ps : List AgentMethodParam)
    (index : Nat) (payload : List (String × JSValue)) (k : String)
    (h : ∀ q ∈ ps, q.name ≠ k) :
    mapGet (buildPayloadAux args index payload ps) k = mapGet payload k := by
  induction ps generalizing index payload with
  | nil => rfl
  | cons p rest ih =>
    simp only [buildPayloadAux]
    rw [ih (index + 1) _ (fun q hq => h q (List.mem_cons_of_mem p hq))]
    exact mapGet_mapSet_ne payload p.name k _ (Ne.symm (h p (List.mem_cons_self p rest)))

theorem mapGet_buildPayloadAux (args : List JSValue) (ps : List AgentMethodParam)
    (index : Nat) (payload : List (String × JSValue))
    (hnd : (ps.map (fun p => p.name)).Nodup) (j : Nat) (hj : j < ps.length) :
    mapGet (buildPayloadAux args index payload ps) (ps[j]).name =
      some (args.getD (index + j) JSValue.undefVal) := by
  induction ps generalizing index payload j with
  | nil => simp at hj
  | cons p rest ih =>
    rw [List.map_cons, List.nodup_cons] at hnd
    obtain ⟨hnot, hnd2⟩ := hnd
    cases j with
    | zero =>
      simp only [buildPayloadAux, List.getElem_cons_zero]
      rw [buildPayloadAux_untouched args rest (index + 1) _ p.name
        (fun q hq heq => hnot (heq ▸ List.mem_map_of_mem (fun x => x.name) hq))]
      simp [mapGet_mapSet_self]
    | succ j =>
      simp only [buildPayloadAux, List.getElem_cons_succ]
      have harith : index + (j + 1) = index + 1 + j := by omega
      rw [harith]
      exact ih (index + 1) _ hnd2 j (by simp only [List.length_cons] at hj; omega)

theorem getD_take_lt (l : List JSValue) (bound j : Nat) (d : JSValue) (h : j < bound) :
    (l.take bound).getD j d = l.getD j d := by
  induction l generalizing bound j with
  | nil => simp
  | cons x xs ih =>
    cases bound with
    | zero => omega
    | succ bound =>
      cases j with
      | zero => simp
      | succ j =>
        simp only [List.take, List.getD_cons_succ]
        exact ih bound j (Nat.lt_of_succ_lt_succ h)

theorem buildPayloadAux_take (args : List JSValue) (ps : List AgentMethodParam)
    (index : Nat) (payload : List (String × JSValue)) (bound : Nat)
    (h : index + ps.length ≤ bound) :
    buildPayloadAux args index payload ps = buildPayloadAux (args.take bound) index payload ps := by
  induction ps generalizing index payload with
  | nil => rfl
  | cons p rest ih =>
    simp only [buildPayloadAux]
    rw [← getD_take_lt args bound index JSValue.undefVal (by simp at h; omega)]
    exact ih (index + 1) _ (by simp at h ⊢; omega)

theorem C3_counterexample :
    (mapGet c3Self.interfaceDef.methods "m").map (fun m => m.proof) = some (some "") ∧
    c3Self.callMethod c3Target "2026-02-20T00:00:00Z" "m" [] =
      .ok { fromId := some "agent:Buyer", toId := some "agent:Seller", intent := "agent:M",
            proof := none, payload := [],
            timestamp := some "2026-02-20T00:00:00Z" } := by
  constructor <;> rfl

/-- C3 (amended): `callMethod` fails with the unknown-method error exactly
when the method is not in the caller's interface model; otherwise it delivers
to the target, via `invokeIntent`, a message whose `from`/`to` are the caller
and target ids, whose intent is the operation's intent, whose proof is the
operation's proof normalized through JS truthiness (null when the proof is
absent or the empty string), and whose payload binds each declared parameter
name to the positional argument at that parameter's index. -/
theorem C3_callMethod {R : Type} (self target : AgentRuntime R) (now methodName : String)
    (args : List JSValue) :
    (self.callMethod target now methodName args = .error (.unknownMethod methodName) ↔
      mapGet self.interfaceDef.methods methodName = none) ∧
    (∀ method, mapGet self.interfaceDef.methods methodName = some method →
      (self.callMethod target now methodName args =
        target.receive
          { fromId := some self.id, toId := some target.id, intent := method.intent,
            proof := jsOrNull method.proof, payload := buildPayload method.params args,
            timestamp := some now }) ∧
      ((method.params.map (fun p => p.name)).Nodup →
        ∀ j (hj : j < method.params.length),
          mapGet (buildPayload method.params args) ((method.params[j]).name) =
            some (args.getD j JSValue.undefVal))) := by
  constructor
  · unfold AgentRuntime.callMethod
    cases h : mapGet self.interfaceDef.methods methodName with
    | none => simp
    | some method =>
      simp only [AgentRuntime.invokeIntent, AgentRuntime.receive]
      cases h2 : mapGet target.intentHandlers method.intent with
      | none => simp
      | some handler => simp
  · intro method hm
    constructor
    · unfold AgentRuntime.callMethod
      rw [hm]
      simp only [AgentRuntime.invokeIntent, jsOrNull_idem]
    · intro hnd j hj
      have := mapGet_buildPayloadAux args method.params 0 [] hnd j hj
      simpa using this

/-- C10: `callMethod` never fails on an arity mismatch: with the method found
it always delivers (whatever the argument count), a declared parameter whose
positional argument is missing is bound to `undefined` in the payload, and
arguments beyond the declared parameters are dropped — the payload only
depends on the first `n` arguments. -/
theorem C10_arity_mismatch {R : Type} (self target : AgentRuntime R) (now methodName : String)
    (args : List JSValue) (method : AgentMethodDef)
    (hm : mapGet self.interfaceDef.methods methodName = some method) :
    (self.callMethod target now methodName args =
      target.receive
        { fromId := some self.id, toId := some target.id, intent := method.intent,
          proof := jsOrNull method.proof, payload := buildPayload method.params args,
          timestamp := some now }) ∧
    buildPayload method.params args = buildPayload method.params (args.take method.params.length) ∧
    ((method.params.map (fun p => p.name)).Nodup →
      ∀ j (hj : j < method.params.length), args.length ≤ j →
        mapGet (buildPayload method.params args) ((method.params[j]).name) =
          some JSValue.undefVal) := by
  refine ⟨?_, ?_, ?_⟩
  · unfold AgentRuntime.callMethod
    rw [hm]
    simp only [AgentRuntime.invokeIntent, jsOrNull_idem]
  · exact buildPayloadAux_take args method.params 0 [] method.params.length (by omega)
  · intro hnd j hj hlen
    have := mapGet_buildPayloadAux args method.params 0 [] hnd j hj
    rw [List.getD_eq_default args JSValue.undefVal (by omega)] at this
    simpa using this

/-- C3 (witness): an unknown method name fails with the unknown-method error;
a declared method delivers the stamped message with its intent, its (truthy)
proof, and the payload binding, via `C3_callMethod`. -/
theorem C3_witness :
    w3Self.callMethod w3Target "now" "missing" [] = .error (.unknownMethod "missing") ∧
    w3Self.callMethod w3Target "now" "executePayment" [.num 5000] =
      w3Target.receive
        { fromId := some "agent:Buyer", toId := some "agent:Seller",
          intent := "agent:ExecutePayment", proof := some "ledger:tx",
          payload := buildPayload w3Method.params [.num 5000], timestamp := some "now" } ∧
    mapGet (buildPayload w3Method.params [.num 5000]) "payment" = some (.num 5000) := by
  refine ⟨?_, ?_, ?_⟩
  · exact (C3_callMethod w3Self w3Target "now" "missing" []).1.mpr rfl
  · exact ((C3_callMethod w3Self w3Target "now" "executePayment" [.num 5000]).2 w3Method rfl).1
  · exact ((C3_callMethod w3Self w3Target "now" "executePayment" [.num 5000]).2 w3Method rfl).2
      (by decide) 0 (by decide)

/-- C10 (witness): with one argument for two declared parameters the second
parameter is bound to `undefined`; with four arguments for two parameters the
extras do not change the payload — via `C10_arity_mismatch`. -/
theorem C10_witness :
    mapGet (buildPayload w10Method.params [.str "c"]) "request" = some JSValue.undefVal ∧
    buildPayload w10Method.params [.str "c", .str "r", .str "x1", .str "x2"] =
      buildPayload w10Method.params [.str "c", .str "r"] := by
  constructor
  · exact (C10_arity_mismatch w10Self w10Target "now" "performTask" [.str "c"] w10Method
      rfl).2.2 (by decide) 1 (by decide) (by decide)
  · exact (C10_arity_mismatch w10Self w10Target "now" "performTask"
      [.str "c", .str "r", .str "x1", .str "x2"] w10Method rfl).2.1

/-! ### C6: required extension attributes -/

theorem filterMap_if_eq_filter_map {α β : Type} (l : List α) (p : α → Bool) (f : α → β) :
    l.filterMap (fun x => if p x then some (f x) else none) = (l.filter p).map f := by
  induction l with
  | nil => rfl
  | cons x xs ih =>
    by_cases h : p x
    · simp [h, ih]
    · simp [h, ih]

/-- C6 (counterexample): a required `Context` attribute whose value is the
empty string: the reader resolves it to the non-null value `""`, yet the
definition check still reports the missing-required-attribute error — the
source tests JS falsiness (`!value`), not nullness. -/
theorem C6_counterexample :
    getExtAttrValueTest (some [c6Attr]) "Context" = some "" ∧
    validateIdlAst [c6Iface] c6Rules "all" =
      ["Missing required interface attribute Context on AgentTask"] := by
  constructor <;> rfl

/-- C6 (amended): for every definition AST, rule set and profile, the
definition check emits, per interface, exactly one missing-required error for
each required interface-level (resp. operation-level) attribute name that the
extension-attribute reader resolves to null or to the empty string — names
the reader resolves to a non-empty string produce no such error. -/
theorem C6_missing_required_attrs (ast : List IdlDef) (coreRules : CoreRules) (profile : String) :
    validateIdlAst ast coreRules profile =
      if (ast.filter (fun d => d.type == "interface")).isEmpty then
        ["No interface definitions found."]
      else
        ((ast.filter (fun d => d.type == "interface")).flatMap (fun iface =>
          ifaceUnknownAttrErrors coreRules iface
          ++ ((coreRules.requiredInterfaceAttrs.filter (fun req =>
                jsFalsyOptStr (getExtAttrValueTest (some (iface.extAttrs.getD [])) req))).map
                (missingIfaceAttrMsg iface))
          ++ iface.members.flatMap (fun member =>
               if member.type == "operation" then
                 memberUnknownAttrErrors coreRules iface member
                 ++ ((coreRules.requiredOperationAttrs.filter (fun req =>
                       jsFalsyOptStr (getExtAttrValueTest (some (member.extAttrs.getD [])) req))).map
                       (missingOpAttrMsg iface member))
                 ++ delegationErrors coreRules iface member
               else [])))
        ++ (if profile == "delegation" && jsFalsyOptStr coreRules.delegationParamType then
              ["Delegation profile requires delegation parameter type rule."] else []) := by
  simp only [validateIdlAst, filterMap_if_eq_filter_map]

/-! ### C7: the generated intents registry -/

theorem foldl_mapSet_isSome {V : Type} (f : MethodMeta → V) (l : List MethodMeta)
    (acc : List (String × V)) (k : String)
    (h : (∃ m ∈ l, m.name = k) ∨ (mapGet acc k).isSome) :
    (mapGet (l.foldl (fun a x => mapSet a x.name (f x)) acc) k).isSome := by
  induction l generalizing acc with
  | nil =>
    rcases h with ⟨m, hm, _⟩ | h
    · simp at hm
    · simpa using h
  | cons x rest ih =>
    simp only [List.foldl_cons]
    apply ih
    rcases h with ⟨m, hm, hk⟩ | h
    · rcases List.mem_cons.mp hm with heq | hm2
      · right
        rw [← hk, heq]
        simp [mapGet_mapSet_self]
      · left; exact ⟨m, hm2, hk⟩
    · right; exact mapGet_mapSet_isSome acc x.name k (f x) h

theorem registerHandlersGen_key_isSome {R : Type} (meta : List MethodMeta)
    (handlers : String → List JSValue → AgentMessage → R) (l : List MethodMeta)
    (rt : AgentRuntime R) (k : String)
    (h : (∃ m ∈ l, registrarIntentFor meta m = k) ∨ (mapGet rt.intentHandlers k).isSome) :
    (mapGet ((l.foldl (fun rt m =>
        rt.registerIntent (registrarIntentFor meta m)
          (fun message =>
            handlers m.name (m.params.map (fun p => payloadGet message.payload p.name)) message))
      rt).intentHandlers) k).isSome := by
  induction l generalizing rt with
  | nil =>
    rcases h with ⟨m, hm, _⟩ | h
    · simp at hm
    · simpa using h
  | cons x rest ih =>
    simp only [List.foldl_cons]
    apply ih
    rcases h with ⟨m, hm, hk⟩ | h
    · rcases List.mem_cons.mp hm with heq | hm2
      · right
        rw [← hk, heq]
        simp [AgentRuntime.registerIntent, mapGet_mapSet_self]
      · left; exact ⟨m, hm2, hk⟩
    · right
      simp only [AgentRuntime.registerIntent]
      exact mapGet_mapSet_isSome _ _ _ _ h

/-- C7: for every operation of the model, the generated client stub and the
generated handler registrar read the same `intents` registry entry: the
intent the client sends for the operation is exactly the intent under which
the registrar binds that operation's handler, and a message sent with that
intent never fails with the unhandled-intent error on a runtime populated by
the registrar. -/
theorem C7_intents_single_table {R : Type} (meta : List MethodMeta) (m : MethodMeta)
    (hm : m ∈ meta) (rt : AgentRuntime R)
    (handlers : String → List JSValue → AgentMessage → R) :
    clientSendsIntent meta m.name = some (registrarIntentFor meta m) ∧
    ∀ message : AgentMessage, message.intent = registrarIntentFor meta m →
      (registerHandlersGen meta rt handlers).receive message ≠
        .error (.unhandledIntent message.intent) := by
  have hsome : (mapGet (intentsObj meta) m.name).isSome := by
    unfold intentsObj
    exact foldl_mapSet_isSome (fun x => (x.intent, jsOrNull x.proof)) meta [] m.name
      (Or.inl ⟨m, hm, rfl⟩)
  obtain ⟨e, he⟩ := Option.isSome_iff_exists.mp hsome
  constructor
  · simp [clientSendsIntent, registrarIntentFor, he]
  · intro message hmsg
    have hkey : (mapGet (registerHandlersGen meta rt handlers).intentHandlers
        message.intent).isSome := by
      rw [hmsg]
      unfold registerHandlersGen
      exact registerHandlersGen_key_isSome meta handlers meta rt _ (Or.inl ⟨m, hm, rfl⟩)
    unfold AgentRuntime.receive
    obtain ⟨handler, hh⟩ := Option.isSome_iff_exists.mp hkey
    rw [hh]
    simp

/-- C7 (witness): on the repository's concrete generated module metadata, the
client sends `agent:ProposeContract` for `proposeContract`, and after
`registerHandlers` the message is not rejected as unhandled — via
`C7_intents_single_table`. -/
theorem C7_witness :
    clientSendsIntent demoMeta "proposeContract" = some "agent:ProposeContract" ∧
    (registerHandlersGen demoMeta demoRt (fun _ _ _ => "ok")).receive demoMsg ≠
      .error (.unhandledIntent "agent:ProposeContract") := by
  have h := C7_intents_single_table demoMeta demoM1 (by simp [demoMeta, demoM1])
    demoRt (fun _ _ _ => "ok")
  constructor
  · exact h.1
  · exact h.2 demoMsg rfl
